import Mathlib

/-!
# StudLicensing — verification of the identity/session client core

Shallow embedding of the StudLicensing frontend session-management code
(`AuthContext.js`, `ApiContext.js`, `UserManagement.js`,
`CompanyManagement.js`, `ProfilePage`, `ResetPasswordPage.js`) together
with a spec-modelled ActionToken redemption store (the Python backend is
not part of the sources; its redemption semantics are modelled from the
specification, §4.3/§5).

JWT decoding (`jwt-decode`) is an external library; it is modelled as an
explicit parameter `dec : String → Option JwtPayload` — `none` models the
exception path of `jwtDecode`.
-/

namespace StudLicensing

/-- The claims a decoded JWT carries, as read by the frontend:
`sub`, optional `name`, `surname`, `type`, and the `exp` instant
(seconds since epoch, compared against `Date.now()` milliseconds). -/
structure JwtPayload where
  sub : String
  pname : Option String
  surname : Option String
  ptype : Option String
  exp : Nat
deriving DecidableEq, Repr

/-- `getRoleDisplayName` from `AuthContext.js`: maps a role key to its
display label, defaulting to the role string itself. -/
def getRoleDisplayName (role : String) : String :=
  if role = "admin" then "Global Administrator"
  else if role = "company_admin" then "Company Administrator"
  else if role = "company_developper" then "Company Developer"
  else if role = "company_commercial" then "Company Commercial"
  else if role = "company_client" then "Client"
  else if role = "basic" then "Basic User"
  else role

/-- The `user` object `AuthContext.js` builds from a decoded token
(`setUser({...})` in the restore effect and in `login`). -/
structure AuthUser where
  id : String
  email : String
  uname : String
  usurname : String
  utype : String
  roleDisplayName : String
deriving DecidableEq, Repr

/-- Builds the `user` object exactly as `AuthContext.js` does:
`id/email = decoded.sub`, empty-string defaults for name/surname, and
`type` defaulting to `"basic"`. -/
def mkUser (d : JwtPayload) : AuthUser :=
  { id := d.sub
    email := d.sub
    uname := d.pname.getD ""
    usurname := d.surname.getD ""
    utype := d.ptype.getD "basic"
    roleDisplayName := getRoleDisplayName (d.ptype.getD "basic") }

/-- The client-held session state of `AuthContext.js`: the `user` and
`token` React state plus the `"token"` entry of `localStorage`. -/
structure AuthState where
  user : Option AuthUser
  token : Option String
  storedToken : Option String
deriving DecidableEq, Repr

/-- The start-up restore effect of `AuthProvider` (`useEffect` on mount):
reads the stored token; if it decodes and `decoded.exp * 1000 > Date.now()`
it becomes the session token and user; otherwise (expired, or decode
throws) the stored token is removed.  `now` is `Date.now()` in
milliseconds; the state starts as `user = null`, `token = null`. -/
def restoreSession (dec : String → Option JwtPayload) (now : Nat)
    (stored : Option String) : AuthState :=
  match stored with
  | none => ⟨none, none, none⟩
  | some t =>
    match dec t with
    | none => ⟨none, none, none⟩
    | some d =>
      if d.exp * 1000 > now then ⟨some (mkUser d), some t, some t⟩
      else ⟨none, none, none⟩

/-- `login` from `AuthContext.js`: decodes the new token, sets `user` and
`token`, and persists the token in `localStorage`; if decoding throws the
catch block only logs and the state is left unchanged. -/
def login (dec : String → Option JwtPayload) (s : AuthState)
    (newToken : String) : AuthState :=
  match dec newToken with
  | some d => ⟨some (mkUser d), some newToken, some newToken⟩
  | none => s

/-- `logout` from `AuthContext.js`: `setUser(null)`, `setToken(null)`,
`localStorage.removeItem("token")` — and nothing else (no fetch). -/
def logout (_s : AuthState) : AuthState :=
  ⟨none, none, none⟩

/-- `hasRole` from `AuthContext.js`: true iff a user is present and its
`type` is in the given role list. -/
def hasRole (userType : Option String) (roles : List String) : Bool :=
  match userType with
  | some t => roles.contains t
  | none => false

/-- The client state seen by `ApiContext.js`: the auth state, the
`currentTokenRef` mutable ref, and whether the 401-handler performed the
`window.location.href = "/login?..."` redirect. -/
structure ClientState where
  auth : AuthState
  currentTokenRef : Option String
  redirectedToLogin : Bool
deriving DecidableEq, Repr

/-- An HTTP response as consumed by `apiCall`: the `x-refresh-token`
header (`none` = header absent / `null`), the status code, and the parsed
JSON `detail` field (`none` = body did not parse as JSON or carried no
`detail`). -/
structure ApiResponse where
  refreshHeader : Option String
  status : Nat
  detail : Option String
deriving DecidableEq, Repr

/-- The rotation-adoption step of `apiCall` (`ApiContext.js`): if the
`x-refresh-token` header is present, truthy (non-empty), and differs from
`currentTokenRef.current`, the ref is updated and `login(refreshToken)`
is invoked (which updates auth state and `localStorage` only when the
token decodes). -/
def adoptRefresh (dec : String → Option JwtPayload) (s : ClientState)
    (r : ApiResponse) : ClientState :=
  match r.refreshHeader with
  | none => s
  | some rt =>
    if rt ≠ "" ∧ some rt ≠ s.currentTokenRef then
      { s with currentTokenRef := some rt, auth := login dec s.auth rt }
    else s

/-- The response post-processing of `apiCall` (`ApiContext.js`): first the
rotation-adoption step, then the 401 handler — on status 401 with parsed
`detail === "Invalid user."` it calls `logout()` and redirects to the
login page; any other 401 (different detail, or unparsable body) falls
through with no state change. -/
def handleResponse (dec : String → Option JwtPayload) (s : ClientState)
    (r : ApiResponse) : ClientState :=
  let s1 := adoptRefresh dec s r
  if r.status = 401 ∧ r.detail = some "Invalid user." then
    { s1 with auth := logout s1.auth, redirectedToLogin := true }
  else s1

/-! ## Admin UI (`UserManagement.js`) -/

/-- The JS value of `user.company_title`: an array of titles, a single
string, or `null`/`undefined`. -/
inductive TitleVal
  | arr (l : List String)
  | str (s : String)
  | nullv
deriving DecidableEq, Repr

/-- `Array.isArray(x) ? x.join(", ") : (x || "")` — the joined form used
by `descendingComparator` for the `company` sort key. -/
def joinedTitles : TitleVal → String
  | .arr l => String.intercalate ", " l
  | .str s => s
  | .nullv => ""

/-- `Array.isArray(x) ? x : (x ? [x] : [])` — the normalised title list
used by the filter and by the row rendering (`""` is falsy). -/
def titlesOf : TitleVal → List String
  | .arr l => l
  | .str s => if s = "" then [] else [s]
  | .nullv => []

/-- The JS value of `user.company_id`: an id, an array of ids, or
`null`/`undefined`. -/
inductive IdVal
  | num (n : Nat)
  | arr (l : List Nat)
  | nullv
deriving DecidableEq, Repr

/-- JS truthiness of `user.company_id` (`!user.company_id`): `null` and
`0` are falsy; an array (even empty) is truthy. -/
def idTruthy : IdVal → Bool
  | .num n => n ≠ 0
  | .arr _ => true
  | .nullv => false

/-- A row of the user table as returned by `/admin/search_user` and
consumed by `UserManagement.js`. -/
structure UserRow where
  username : String
  rname : String
  surname : String
  user_type : String
  company_title : TitleVal
  company_id : IdVal
deriving DecidableEq, Repr

/-- `user.username === "administrator@studlicensing.local"` — the
protected seed super-administrator check in the row renderer
(the username is `SUPERADMIN_ACCOUNT_USERNAME` from `generate_env.sh`). -/
def isProtectedUser (u : UserRow) : Bool :=
  u.username = "administrator@studlicensing.local"

/-- `String.prototype.includes`: substring containment. -/
def strIncludes (s sub : String) : Bool :=
  (List.range (s.length + 1)).any fun i => sub.data.isPrefixOf (s.data.drop i)

/-- The `matchesSearch` disjunction of the client-side filter:
case-insensitive substring match on username, name or surname. -/
def matchesSearch (searchLower : String) (u : UserRow) : Bool :=
  strIncludes u.username.toLower searchLower ||
  strIncludes u.rname.toLower searchLower ||
  strIncludes u.surname.toLower searchLower

/-- The client-side filter predicate of `filteredUsers`
(`UserManagement.js`): search-term filter, then the `global_admin`
pseudo-filters, then the type filter, then the company filter. -/
def filterPred (searchTerm filterType filterCompany : String)
    (u : UserRow) : Bool :=
  if searchTerm ≠ "" ∧ ¬ matchesSearch searchTerm.toLower u then false
  else if filterCompany = "global_admin" then
    u.user_type = "admin" && !(idTruthy u.company_id)
  else if filterType = "global_admin" then
    u.user_type = "admin" && !(idTruthy u.company_id)
  else if filterType ≠ "all_types" ∧ u.user_type ≠ filterType then false
  else filterCompany = "all" || (titlesOf u.company_title).contains filterCompany

/-- Caller-role flags of `UserManagement.js`, each a `hasRole` call. -/
def isAdminOf (role : Option String) : Bool := hasRole role ["admin"]

/-- `canOnlyCreateClient = hasRole(["company_developper", "company_commercial"])`. -/
def canOnlyCreateClientOf (role : Option String) : Bool :=
  hasRole role ["company_developper", "company_commercial"]

/-- `isCompanyAdmin = hasRole(["company_admin"])`. -/
def isCompanyAdminOf (role : Option String) : Bool :=
  hasRole role ["company_admin"]

/-- The `/admin` route is wrapped in a `ProtectedRoute` with
`requiredRoles=["admin","company_admin","company_developper",
"company_commercial"]` (`App.js`). -/
def adminPageAccessible (role : Option String) : Bool :=
  hasRole role ["admin", "company_admin", "company_developper", "company_commercial"]

/-- The per-row action controls of the user table. -/
inductive ActionControl
  | editBtn
  | gearBtn
  | deleteBtn
deriving DecidableEq, Repr

/-- The rendered Actions cell of a user row. -/
inductive ActionsCell
  | absent
  | protectedText
  | controls (cs : List ActionControl)
deriving DecidableEq, Repr

/-- The Actions cell as rendered by `UserManagement.js`: no Actions
column at all for `canOnlyCreateClient` callers; the literal `Protected`
text (no controls) for the protected seed administrator; otherwise Edit,
the gear (admin only), and Delete. -/
def actionsCellOf (canOnlyCreateClient isAdmin : Bool) (u : UserRow) :
    ActionsCell :=
  if canOnlyCreateClient then .absent
  else if isProtectedUser u then .protectedText
  else .controls ([.editBtn] ++ (if isAdmin then [.gearBtn] else []) ++ [.deleteBtn])

/-- The action controls a cell offers (`absent` and `protectedText`
offer none). -/
def controlsOf : ActionsCell → List ActionControl
  | .controls cs => cs
  | _ => []

/-- The items of the gear menu. -/
inductive GearItem
  | changeEmail
  | addToCompany
  | removeFromCompany
deriving DecidableEq, Repr

/-- The gear (`Settings`) menu contents for a target user
(`UserManagement.js`): Change Email always; Add to Company and Remove
from Company exactly when `gearMenuUser?.user_type === "company_client"`. -/
def gearMenuItems (u : UserRow) : List GearItem :=
  [.changeEmail] ++
  (if u.user_type = "company_client" then [.addToCompany, .removeFromCompany] else [])

/-- The gear menu is reachable for a target iff the caller's row actions
include the gear button: the Actions column exists, the caller is a
global admin, and the target is not the protected seed administrator. -/
def gearAvailable (role : Option String) (u : UserRow) : Bool :=
  (controlsOf (actionsCellOf (canOnlyCreateClientOf role) (isAdminOf role) u)).contains
    ActionControl.gearBtn

/-- Whether a company-membership Add/Remove action is reachable for the
given caller role and target user: the gear menu must be reachable and
the target's role must be `company_client`. -/
def membershipActionAvailable (role : Option String) (u : UserRow) : Bool :=
  gearAvailable role u && u.user_type = "company_client"

/-- Whether the Change-Email action is reachable (gear menu reachable). -/
def changeEmailAvailable (role : Option String) (u : UserRow) : Bool :=
  gearAvailable role u

/-- `userTypes` from `UserManagement.js`. -/
def userTypes : List String :=
  ["all_types", "global_admin", "company_admin", "company_client",
   "company_commercial", "company_developper"]

/-- The options of the User Type selector in the Create-User dialog:
only `company_client` for `canOnlyCreateClient` callers; all types except
`all_types` and `global_admin` for a company admin; all types except
`all_types` otherwise (the global-admin branch). -/
def roleOptions (role : Option String) : List String :=
  if canOnlyCreateClientOf role then ["company_client"]
  else if isCompanyAdminOf role then
    userTypes.filter fun t => t ≠ "all_types" ∧ t ≠ "global_admin"
  else userTypes.filter fun t => t ≠ "all_types"

/-- `handleCreateUser`: the `user_type` form value actually sent
(`"global_admin"` is mapped to `"admin"`). -/
def typeToSend (selected : String) : String :=
  if selected = "global_admin" then "admin" else selected

/-- `handleCreateUser`: `company_id` is appended to the form data only if
the caller is a global admin and the selected id is truthy (non-empty). -/
def companyIdSent (role : Option String) (cid : String) : Option String :=
  if isAdminOf role ∧ cid ≠ "" then some cid else none

/-- The Company-Name `Autocomplete` of the Create-User dialog is rendered
only for a global admin (`isGlobalAdmin && <Autocomplete .../>`). -/
def companyAttachmentOffered (role : Option String) : Bool :=
  isAdminOf role

/-! ## Requests emitted by form handlers -/

/-- An HTTP request issued through `apiCall` (endpoint and method are
what the claims need). -/
structure ApiRequest where
  endpoint : String
  method : String
deriving DecidableEq, Repr

/-- `handlePasswordChange` (`ProfilePage`): if the new and confirm
passwords differ it sets the `"New passwords do not match"` error and
returns before any request; otherwise it posts to
`/auth/change_password`.  Result: the validation error (if any) and the
list of requests the handler issues. -/
def handlePasswordChange (_oldPassword newPassword confirmPassword : String) :
    Option String × List ApiRequest :=
  if newPassword ≠ confirmPassword then
    (some "New passwords do not match", [])
  else
    (none, [⟨"/auth/change_password", "POST"⟩])

/-- `handleSubmit` (`ResetPasswordPage.js`): if the new and confirm
passwords differ it sets the `"Passwords do not match"` error and returns
before any request; otherwise it posts the token and passwords to
`/auth/reset_password`. -/
def handleResetSubmit (_token newPassword confirmPassword : String) :
    Option String × List ApiRequest :=
  if newPassword ≠ confirmPassword then
    (some "Passwords do not match", [])
  else
    (none, [⟨"/auth/reset_password", "POST"⟩])

/-- A server-side state abstraction (stored password hash); used to show
that a handler that issues no request leaves the server untouched,
whatever the server's request semantics are. -/
structure ServerState where
  passwordHash : String
deriving DecidableEq, Repr

/-- `handleLogout` (avatar menu): calls the context `logout()` (pure
client-side discard) and navigates to `/login`; it issues no request.
Result: the new client state, the requests issued, and the navigation
target. -/
def handleLogout (s : ClientState) : ClientState × List ApiRequest × String :=
  ({ s with auth := logout s.auth }, [], "/login")

/-! ## ActionToken redemption (spec-modelled)

The backend (Python) is not among the sources; the definitions below are
modelled from the specification. -/

/-- Modelled from the spec: the `purpose` tag of an ActionToken
(§3, validate-email | reset-password); the backend code holding it is not
among the sources. -/
inductive Purpose
  | validateEmail
  | resetPassword
deriving DecidableEq, Repr

/-- Modelled from the spec: a persisted ActionToken row
{subject principal id, purpose, expires-at, consumed flag} (§3); the
backend code holding it is not among the sources. -/
structure ActionToken where
  subjectId : Nat
  purpose : Purpose
  expiresAt : Nat
  consumed : Bool
deriving DecidableEq, Repr

/-- The persisted ActionToken table, keyed by the opaque token value. -/
abbrev TokenStore : Type := List (String × ActionToken)

/-- Lookup of a token row by its opaque value. -/
def TokenStore.find (st : TokenStore) (tok : String) : Option ActionToken :=
  match st with
  | [] => none
  | (k, a) :: rest => if k = tok then some a else TokenStore.find rest tok

/-- Marks the row of `tok` consumed, leaving every other row unchanged. -/
def TokenStore.consume (st : TokenStore) (tok : String) : TokenStore :=
  st.map fun p => if p.1 = tok then (p.1, { p.2 with consumed := true }) else p

/-- Outcome of a redemption attempt: `Mismatch` for differing password
fields, the collapsed generic invalid-or-expired failure, or success. -/
inductive RedeemResult
  | mismatch
  | invalidOrExpired
  | success
deriving DecidableEq, Repr

/-- Modelled from the spec: `redeemPasswordReset`/`redeemEmailValidation`
(§4.3) — fails with `Mismatch` if the password fields differ; fails with
the collapsed generic message if the token is unknown, already consumed,
or expired (`now ≥ expires-at`); on success atomically marks the token
consumed.  The backend code implementing this is not among the sources. -/
def redeem (now : Nat) (tok newPassword confirmPassword : String)
    (st : TokenStore) : RedeemResult × TokenStore :=
  if newPassword ≠ confirmPassword then (.mismatch, st)
  else
    match st.find tok with
    | none => (.invalidOrExpired, st)
    | some a =>
      if a.consumed then (.invalidOrExpired, st)
      else if a.expiresAt ≤ now then (.invalidOrExpired, st)
      else (.success, st.consume tok)

/-- One redemption attempt: its clock instant and its password fields. -/
structure Attempt where
  now : Nat
  newPassword : String
  confirmPassword : String
deriving DecidableEq, Repr

/-- Runs a sequence of redemption attempts against the same token.  Per
§5 each check-not-consumed/mark-consumed step is atomic, so any
concurrent execution is equivalent to some serial order of the attempts,
which is what this fold models. -/
def runRedemptions (tok : String) (st : TokenStore) :
    List Attempt → List RedeemResult × TokenStore
  | [] => ([], st)
  | a :: rest =>
    let step := redeem a.now tok a.newPassword a.confirmPassword st
    let tail := runRedemptions tok step.2 rest
    (step.1 :: tail.1, tail.2)

/-- The number of successful outcomes in a list of redemption results. -/
def successCount (rs : List RedeemResult) : Nat :=
  (rs.filter (· = RedeemResult.success)).length

/-! ## Table sorting (`stableSort` / `getComparator`) -/

/-- The three-valued comparison `if x2 < x1 then -1 else if x2 > x1 then 1
else 0` underlying `descendingComparator`, as a function of the two
compared (already lowercased) values. -/
def strCmp (x y : String) : Int :=
  if x < y then -1 else if y < x then 1 else 0

/-- `a[orderBy]` for the sortable scalar columns of the user table
(`(a[orderBy] || "").toString()`; an unknown key yields `""`). -/
def fieldOf (u : UserRow) (k : String) : String :=
  if k = "username" then u.username
  else if k = "name" then u.rname
  else if k = "surname" then u.surname
  else if k = "user_type" then u.user_type
  else ""

/-- The lowercased sort key `descendingComparator` extracts for a row:
the joined company titles for the `company` column, the plain field
otherwise. -/
def keyOf (orderBy : String) (u : UserRow) : String :=
  if orderBy = "company" then (joinedTitles u.company_title).toLower
  else (fieldOf u orderBy).toLower

/-- `descendingComparator` from `UserManagement.js`: lowercases the two
values of the sort column (joining company titles with `", "` for the
`company` key) and returns `-1/1/0` by string comparison. -/
def descendingComparator (a b : UserRow) (orderBy : String) : Int :=
  let valA := if orderBy = "company" then (joinedTitles a.company_title).toLower
              else (fieldOf a orderBy).toLower
  let valB := if orderBy = "company" then (joinedTitles b.company_title).toLower
              else (fieldOf b orderBy).toLower
  if valB < valA then -1 else if valA < valB then 1 else 0

/-- `getComparator` from `UserManagement.js`: the descending comparator
for `"desc"`, its pointwise negation otherwise. -/
def getComparator (order orderBy : String) : UserRow → UserRow → Int :=
  if order = "desc" then fun a b => descendingComparator a b orderBy
  else fun a b => -(descendingComparator a b orderBy)

/-- The order `stableSort` sorts the index-decorated pairs by: the
comparator on the elements, with the original index as tie-break
(`comp !== 0 ? comp : a[1] - b[1]` in the source, as a `≤` relation). -/
def stabLE {α : Type} (comp : α → α → Int) (x y : Nat × α) : Prop :=
  comp x.2 y.2 < 0 ∨ (comp x.2 y.2 = 0 ∧ x.1 ≤ y.1)

instance stabLE.instDecidableRel {α : Type} (comp : α → α → Int) :
    DecidableRel (stabLE comp) := fun x y => by
  unfold stabLE; infer_instance

/-- `array.map((el, index) => [el, index])` — decoration of each element
with its index (index first here). -/
def decorate {α : Type} : Nat → List α → List (Nat × α)
  | _, [] => []
  | i, a :: l => (i, a) :: decorate (i + 1) l

/-- `stableSort` from `UserManagement.js`/`CompanyManagement.js`:
decorates the rows with their indices, sorts by the comparator with the
index as tie-break (a total order, so any comparison sort — here
insertion sort — yields the same result as `Array.prototype.sort`), and
strips the indices. -/
def stableSort {α : Type} (array : List α) (comparator : α → α → Int) :
    List α :=
  (List.insertionSort (stabLE comparator) (decorate 0 array)).map Prod.snd

/-- The ascending comparator induced by a key function. -/
def keyCmpAsc {α : Type} (f : α → String) (a b : α) : Int :=
  strCmp (f a) (f b)

/-- The descending comparator induced by a key function. -/
def keyCmpDesc {α : Type} (f : α → String) (a b : α) : Int :=
  strCmp (f b) (f a)

lemma strCmp_neg (x y : String) : -strCmp x y = strCmp y x := by
  unfold strCmp
  rcases lt_trichotomy x y with h | h | h
  · simp [h, asymm h]
  · simp [h]
  · simp [h, asymm h, not_lt_of_gt h]

lemma strCmp_lt_iff (x y : String) : strCmp x y < 0 ↔ x < y := by
  unfold strCmp
  rcases lt_trichotomy x y with h | h | h
  · simp [h]
  · simp [h]
  · simp [h, asymm h, not_lt_of_gt h]

lemma strCmp_eq_zero_iff (x y : String) : strCmp x y = 0 ↔ x = y := by
  unfold strCmp
  rcases lt_trichotomy x y with h | h | h
  · simp [h, ne_of_lt h]
  · simp [h]
  · simp [h, asymm h, not_lt_of_gt h, (ne_of_lt h).symm]

lemma descendingComparator_eq (a b : UserRow) (k : String) :
    descendingComparator a b k = strCmp (keyOf k b) (keyOf k a) := rfl

lemma getComparator_desc_eq (k : String) :
    getComparator "desc" k = keyCmpDesc (keyOf k) := by
  funext a b
  simp [getComparator, keyCmpDesc, descendingComparator_eq]

lemma getComparator_asc_eq (k : String) :
    getComparator "asc" k = keyCmpAsc (keyOf k) := by
  funext a b
  have : ("asc" : String) ≠ "desc" := by decide
  simp [getComparator, this, keyCmpAsc, descendingComparator_eq, strCmp_neg]

lemma stabLE_asc_iff {α : Type} (f : α → String) (x y : Nat × α) :
    stabLE (keyCmpAsc f) x y ↔
      f x.2 < f y.2 ∨ (f x.2 = f y.2 ∧ x.1 ≤ y.1) := by
  unfold stabLE keyCmpAsc
  rw [strCmp_lt_iff, strCmp_eq_zero_iff]

lemma stabLE_desc_iff {α : Type} (f : α → String) (x y : Nat × α) :
    stabLE (keyCmpDesc f) x y ↔
      f y.2 < f x.2 ∨ (f x.2 = f y.2 ∧ x.1 ≤ y.1) := by
  unfold stabLE keyCmpDesc
  rw [strCmp_lt_iff, strCmp_eq_zero_iff, eq_comm]

lemma isTotal_stabLE_asc {α : Type} (f : α → String) :
    IsTotal (Nat × α) (stabLE (keyCmpAsc f)) := by
  constructor
  intro x y
  rw [stabLE_asc_iff, stabLE_asc_iff]
  rcases lt_trichotomy (f x.2) (f y.2) with h | h | h
  · exact Or.inl (Or.inl h)
  · rcases Nat.le_total x.1 y.1 with hi | hi
    · exact Or.inl (Or.inr ⟨h, hi⟩)
    · exact Or.inr (Or.inr ⟨h.symm, hi⟩)
  · exact Or.inr (Or.inl h)

lemma isTrans_stabLE_asc {α : Type} (f : α → String) :
    IsTrans (Nat × α) (stabLE (keyCmpAsc f)) := by
  constructor
  intro x y z hxy hyz
  rw [stabLE_asc_iff] at hxy hyz ⊢
  rcases hxy with h1 | ⟨h1, i1⟩ <;> rcases hyz with h2 | ⟨h2, i2⟩
  · exact Or.inl (lt_trans h1 h2)
  · exact Or.inl (h2 ▸ h1)
  · exact Or.inl (h1 ▸ h2)
  · exact Or.inr ⟨h1.trans h2, i1.trans i2⟩

lemma isTotal_stabLE_desc {α : Type} (f : α → String) :
    IsTotal (Nat × α) (stabLE (keyCmpDesc f)) := by
  constructor
  intro x y
  rw [stabLE_desc_iff, stabLE_desc_iff]
  rcases lt_trichotomy (f x.2) (f y.2) with h | h | h
  · exact Or.inr (Or.inl h)
  · rcases Nat.le_total x.1 y.1 with hi | hi
    · exact Or.inl (Or.inr ⟨h, hi⟩)
    · exact Or.inr (Or.inr ⟨h.symm, hi⟩)
  · exact Or.inl (Or.inl h)

lemma isTrans_stabLE_desc {α : Type} (f : α → String) :
    IsTrans (Nat × α) (stabLE (keyCmpDesc f)) := by
  constructor
  intro x y z hxy hyz
  rw [stabLE_desc_iff] at hxy hyz ⊢
  rcases hxy with h1 | ⟨h1, i1⟩ <;> rcases hyz with h2 | ⟨h2, i2⟩
  · exact Or.inl (lt_trans h2 h1)
  · exact Or.inl (h2 ▸ h1)
  · exact Or.inl (h1 ▸ h2)
  · exact Or.inr ⟨h1.trans h2, i1.trans i2⟩

lemma decorate_map_snd {α : Type} : ∀ (i : Nat) (l : List α),
    (decorate i l).map Prod.snd = l
  | _, [] => rfl
  | i, a :: l => by
    simp [decorate, decorate_map_snd (i + 1) l]

lemma stableSort_perm {α : Type} (l : List α) (comp : α → α → Int) :
    List.Perm (stableSort l comp) l := by
  unfold stableSort
  have h := (List.perm_insertionSort (stabLE comp) (decorate 0 l)).map Prod.snd
  rwa [decorate_map_snd] at h

/-! ## Helper lemmas for ActionToken redemption -/

lemma find_consume_self (st : TokenStore) (tok : String) (a : ActionToken)
    (h : st.find tok = some a) :
    (st.consume tok).find tok = some { a with consumed := true } := by
  induction st with
  | nil => simp [TokenStore.find] at h
  | cons p rest ih =>
    by_cases hk : p.1 = tok
    · unfold TokenStore.find at h
      rw [if_pos hk] at h
      cases h
      unfold TokenStore.consume
      simp only [List.map]
      rw [if_pos hk]
      unfold TokenStore.find
      rw [if_pos hk]
    · unfold TokenStore.find at h
      rw [if_neg hk] at h
      unfold TokenStore.consume
      simp only [List.map]
      rw [if_neg hk]
      unfold TokenStore.find
      rw [if_neg hk]
      exact ih h

lemma redeem_dead (st : TokenStore) (tok : String)
    (hdead : ∀ a, st.find tok = some a → a.consumed = true)
    (n : Nat) (p q : String) :
    (redeem n tok p q st).1 ≠ RedeemResult.success
    ∧ (redeem n tok p q st).2 = st
    ∧ (p = q → (redeem n tok p q st).1 = RedeemResult.invalidOrExpired) := by
  unfold redeem
  by_cases hpq : p ≠ q
  · rw [if_pos hpq]
    exact ⟨by simp, rfl, fun h => absurd h hpq⟩
  · rw [if_neg hpq]
    cases hf : st.find tok with
    | none => exact ⟨by simp, rfl, fun _ => rfl⟩
    | some a =>
      have hc := hdead a hf
      simp only [hc]
      exact ⟨by simp, rfl, fun _ => rfl⟩

lemma run_dead (tok : String) (attempts : List Attempt) :
    ∀ st : TokenStore, (∀ a, st.find tok = some a → a.consumed = true) →
    successCount (runRedemptions tok st attempts).1 = 0 := by
  induction attempts with
  | nil => intro st _; simp [runRedemptions, successCount]
  | cons a rest ih =>
    intro st hdead
    obtain ⟨hne, hst, _⟩ := redeem_dead st tok hdead a.now a.newPassword a.confirmPassword
    have htail := ih (redeem a.now tok a.newPassword a.confirmPassword st).2
      (by rw [hst]; exact hdead)
    simp only [runRedemptions, successCount, List.filter_cons] at htail ⊢
    rw [if_neg (by simpa using hne)]
    exact htail

lemma redeem_success_dead (st : TokenStore) (tok : String) (n : Nat)
    (p q : String) (st' : TokenStore)
    (h : redeem n tok p q st = (RedeemResult.success, st')) :
    ∀ a, st'.find tok = some a → a.consumed = true := by
  unfold redeem at h
  by_cases hpq : p ≠ q
  · rw [if_pos hpq] at h
    cases h
  · rw [if_neg hpq] at h
    cases hf : st.find tok with
    | none => rw [hf] at h; cases h
    | some a =>
      rw [hf] at h
      by_cases hc : a.consumed
      · simp [hc] at h
      · simp only [hc, if_false, Bool.false_eq_true] at h
        by_cases he : a.expiresAt ≤ n
        · rw [if_pos he] at h; cases h
        · rw [if_neg he] at h
          have hst : st' = st.consume tok := (Prod.mk.injEq .. ▸ h).2.symm
          intro b hb
          rw [hst, find_consume_self st tok a hf] at hb
          cases hb
          rfl

lemma run_le_one (tok : String) (attempts : List Attempt) :
    ∀ st : TokenStore, successCount (runRedemptions tok st attempts).1 ≤ 1 := by
  induction attempts with
  | nil => intro st; simp [runRedemptions, successCount]
  | cons a rest ih =>
    intro st
    cases hstep : redeem a.now tok a.newPassword a.confirmPassword st with
    | mk r st2 =>
      simp only [runRedemptions, successCount, hstep, List.filter_cons]
      by_cases hr : r = RedeemResult.success
      · subst hr
        rw [if_pos (by simp)]
        have hdead := redeem_success_dead st tok a.now a.newPassword
          a.confirmPassword st2 hstep
        have h0 := run_dead tok rest st2 hdead
        simp only [successCount] at h0
        simp [h0]
      · rw [if_neg (by simpa using hr)]
        have htail := ih st2
        simpa [successCount] using htail

/-! ## Sortedness and stability of `stableSort` -/

lemma stableSort_sorted_asc {α : Type} (f : α → String) (l : List α) :
    List.Pairwise (fun a b => f a ≤ f b) (stableSort l (keyCmpAsc f)) := by
  haveI := isTotal_stabLE_asc f
  haveI := isTrans_stabLE_asc f
  have hs : List.Pairwise (stabLE (keyCmpAsc f))
      (List.insertionSort (stabLE (keyCmpAsc f)) (decorate 0 l)) :=
    List.sorted_insertionSort (stabLE (keyCmpAsc f)) (decorate 0 l)
  unfold stableSort
  rw [List.pairwise_map]
  refine hs.imp ?_
  intro x y hxy
  rcases (stabLE_asc_iff f x y).1 hxy with h | ⟨h, _⟩
  · exact le_of_lt h
  · exact le_of_eq h

lemma stableSort_sorted_desc {α : Type} (f : α → String) (l : List α) :
    List.Pairwise (fun a b => f b ≤ f a) (stableSort l (keyCmpDesc f)) := by
  haveI := isTotal_stabLE_desc f
  haveI := isTrans_stabLE_desc f
  have hs : List.Pairwise (stabLE (keyCmpDesc f))
      (List.insertionSort (stabLE (keyCmpDesc f)) (decorate 0 l)) :=
    List.sorted_insertionSort (stabLE (keyCmpDesc f)) (decorate 0 l)
  unfold stableSort
  rw [List.pairwise_map]
  refine hs.imp ?_
  intro x y hxy
  rcases (stabLE_desc_iff f x y).1 hxy with h | ⟨h, _⟩
  · exact le_of_lt h
  · exact le_of_eq h.symm

lemma insertionSort_stable {α : Type} (comp : α → α → Int)
    (ht : IsTotal (Nat × α) (stabLE comp)) (htr : IsTrans (Nat × α) (stabLE comp))
    (l : List α) :
    List.Pairwise (fun x y => comp x.2 y.2 = 0 → x.1 ≤ y.1)
      (List.insertionSort (stabLE comp) (decorate 0 l)) := by
  haveI := ht
  haveI := htr
  have hs : List.Pairwise (stabLE comp)
      (List.insertionSort (stabLE comp) (decorate 0 l)) :=
    List.sorted_insertionSort (stabLE comp) (decorate 0 l)
  refine hs.imp ?_
  intro x y hxy hz
  unfold stabLE at hxy
  rcases hxy with h | ⟨_, hi⟩
  · omega
  · exact hi

/-! ## Claim theorems -/

/-- C2. An ActionToken can be redeemed successfully at most once: in any
serialisation of (concurrent, per §5 atomic) redemption attempts on the
same token, at most one succeeds; once a redemption has succeeded, every
further attempt with matching password fields fails with the generic
invalid-or-expired outcome, and no later attempt can succeed. -/
theorem actionToken_redeemed_at_most_once (st : TokenStore) (tok : String)
    (attempts : List Attempt) (n n' : Nat) (p p' : String)
    (st' : TokenStore) (rest : List Attempt)
    (hsucc : redeem n tok p p st = (RedeemResult.success, st')) :
    successCount (runRedemptions tok st attempts).1 ≤ 1
    ∧ (redeem n' tok p' p' st').1 = RedeemResult.invalidOrExpired
    ∧ successCount (runRedemptions tok st' rest).1 = 0 := by
  have hdead := redeem_success_dead st tok n p p st' hsucc
  refine ⟨run_le_one tok attempts st, ?_, run_dead tok rest st' hdead⟩
  obtain ⟨_, _, hmatch⟩ := redeem_dead st' tok hdead n' p' p'
  exact hmatch rfl

/-- C2 witness: a concrete store in which the first redemption of token
`"t"` succeeds, a matching second attempt fails with the generic
invalid-or-expired outcome, and the serialised two-attempt run has
exactly one success. -/
theorem actionToken_redeemed_at_most_once_witness :
    successCount (runRedemptions "t"
        [("t", ⟨1, Purpose.resetPassword, 10, false⟩)]
        [⟨0, "pw", "pw"⟩, ⟨1, "pw", "pw"⟩]).1 ≤ 1
    ∧ (redeem 2 "t" "pw" "pw"
        [("t", ⟨1, Purpose.resetPassword, 10, true⟩)]).1
      = RedeemResult.invalidOrExpired
    ∧ successCount (runRedemptions "t"
        [("t", ⟨1, Purpose.resetPassword, 10, true⟩)]
        [⟨3, "pw", "pw"⟩]).1 = 0 :=
  actionToken_redeemed_at_most_once
    [("t", ⟨1, Purpose.resetPassword, 10, false⟩)] "t"
    [⟨0, "pw", "pw"⟩, ⟨1, "pw", "pw"⟩] 0 2 "pw" "pw"
    [("t", ⟨1, Purpose.resetPassword, 10, true⟩)]
    [⟨3, "pw", "pw"⟩] (by decide)

/-- C3. Session-restore validity window (`AuthProvider` start-up effect):
a stored token whose decoded expiry instant is strictly in the future
(`exp * 1000 > Date.now()`) is restored into an authenticated session
(token and user set); a stored token whose expiry instant has been
reached or passed yields no session and is removed from storage. -/
theorem session_restore_validity_window (dec : String → Option JwtPayload)
    (now : Nat) (t : String) (d : JwtPayload) (hdec : dec t = some d) :
    (d.exp * 1000 > now →
      restoreSession dec now (some t) = ⟨some (mkUser d), some t, some t⟩)
    ∧ (d.exp * 1000 ≤ now →
      restoreSession dec now (some t) = ⟨none, none, none⟩) := by
  constructor
  · intro h
    simp [restoreSession, hdec, h]
  · intro h
    simp only [restoreSession, hdec]
    rw [if_neg (by omega)]

/-- C3 witness: a token decoding to expiry instant 10 (seconds) restored
at `now = 0` ms produces the authenticated session; the same theorem
instance also covers the expired branch vacuously. -/
theorem session_restore_validity_window_witness :
    ((⟨"u@e", none, none, some "admin", 10⟩ : JwtPayload).exp * 1000 > 0 →
      restoreSession (fun _ => some ⟨"u@e", none, none, some "admin", 10⟩) 0 (some "tk")
        = ⟨some (mkUser ⟨"u@e", none, none, some "admin", 10⟩), some "tk", some "tk"⟩)
    ∧ ((⟨"u@e", none, none, some "admin", 10⟩ : JwtPayload).exp * 1000 ≤ 0 →
      restoreSession (fun _ => some ⟨"u@e", none, none, some "admin", 10⟩) 0 (some "tk")
        = ⟨none, none, none⟩) :=
  session_restore_validity_window
    (fun _ => some ⟨"u@e", none, none, some "admin", 10⟩) 0 "tk"
    ⟨"u@e", none, none, some "admin", 10⟩ rfl

lemma adoptRefresh_storedToken_cases (dec : String → Option JwtPayload)
    (s : ClientState) (r : ApiResponse) :
    (adoptRefresh dec s r).auth.storedToken = s.auth.storedToken
    ∨ ∃ rt, (adoptRefresh dec s r).auth.storedToken = some rt := by
  cases hrh : r.refreshHeader with
  | none => simp [adoptRefresh, hrh]
  | some rt =>
    by_cases hc : rt ≠ "" ∧ some rt ≠ s.currentTokenRef
    · simp only [adoptRefresh, hrh]
      rw [if_pos hc]
      cases hd : dec rt with
      | none => simp [login, hd]
      | some d => exact Or.inr ⟨rt, by simp [login, hd]⟩
    · simp only [adoptRefresh, hrh]
      rw [if_neg hc]
      exact Or.inl rfl

/-- C4. Deleted-account terminal condition (`apiCall` 401 handler): a 401
response whose parsed `detail` is exactly `"Invalid user."` discards the
stored credentials (user, token and persisted token all cleared) and
redirects to the login page; a 401 with any other detail (or an
unparsable body) performs only the rotation-adoption step, which never
discards a present stored token. -/
theorem invalid_user_401_discards_credentials (dec : String → Option JwtPayload)
    (s : ClientState) (r : ApiResponse) (h401 : r.status = 401) :
    (r.detail = some "Invalid user." →
      (handleResponse dec s r).auth = ⟨none, none, none⟩
      ∧ (handleResponse dec s r).redirectedToLogin = true)
    ∧ (r.detail ≠ some "Invalid user." →
      handleResponse dec s r = adoptRefresh dec s r
      ∧ ((handleResponse dec s r).auth.storedToken = none →
          s.auth.storedToken = none)) := by
  constructor
  · intro hd
    have hcond : r.status = 401 ∧ r.detail = some "Invalid user." := ⟨h401, hd⟩
    unfold handleResponse
    rw [if_pos hcond]
    exact ⟨rfl, rfl⟩
  · intro hd
    have hcond : ¬(r.status = 401 ∧ r.detail = some "Invalid user.") :=
      fun h => hd h.2
    have heq : handleResponse dec s r = adoptRefresh dec s r := by
      unfold handleResponse
      rw [if_neg hcond]
    refine ⟨heq, ?_⟩
    intro hn
    rw [heq] at hn
    rcases adoptRefresh_storedToken_cases dec s r with h | ⟨rt, h⟩
    · rw [h] at hn
      exact hn
    · rw [h] at hn
      cases hn

/-- C4 witness: a 401 response carrying `detail = "Invalid user."`
against a live session clears the credentials and redirects; the
other-detail branch holds vacuously at this input. -/
theorem invalid_user_401_discards_credentials_witness :
    ((⟨none, 401, some "Invalid user."⟩ : ApiResponse).detail = some "Invalid user." →
      (handleResponse (fun _ => none)
          ⟨⟨none, some "tokA", some "tokA"⟩, some "tokA", false⟩
          ⟨none, 401, some "Invalid user."⟩).auth = ⟨none, none, none⟩
      ∧ (handleResponse (fun _ => none)
          ⟨⟨none, some "tokA", some "tokA"⟩, some "tokA", false⟩
          ⟨none, 401, some "Invalid user."⟩).redirectedToLogin = true)
    ∧ ((⟨none, 401, some "Invalid user."⟩ : ApiResponse).detail ≠ some "Invalid user." →
      handleResponse (fun _ => none)
          ⟨⟨none, some "tokA", some "tokA"⟩, some "tokA", false⟩
          ⟨none, 401, some "Invalid user."⟩
        = adoptRefresh (fun _ => none)
          ⟨⟨none, some "tokA", some "tokA"⟩, some "tokA", false⟩
          ⟨none, 401, some "Invalid user."⟩
      ∧ ((handleResponse (fun _ => none)
          ⟨⟨none, some "tokA", some "tokA"⟩, some "tokA", false⟩
          ⟨none, 401, some "Invalid user."⟩).auth.storedToken = none →
          (⟨⟨none, some "tokA", some "tokA"⟩, some "tokA", false⟩ : ClientState).auth.storedToken = none)) :=
  invalid_user_401_discards_credentials (fun _ => none)
    ⟨⟨none, some "tokA", some "tokA"⟩, some "tokA", false⟩
    ⟨none, 401, some "Invalid user."⟩ rfl

/-- C6. Password-field mismatch is rejected before any request: with
differing new/confirm fields, the change-password handler and the
reset-password handler set their mismatch validation errors and issue no
request at all, so any server state is left unchanged (the stored hash in
particular). -/
theorem password_mismatch_no_request (oldPw newPw confirmPw tok : String)
    (h : newPw ≠ confirmPw) :
    handlePasswordChange oldPw newPw confirmPw
      = (some "New passwords do not match", [])
    ∧ handleResetSubmit tok newPw confirmPw
      = (some "Passwords do not match", [])
    ∧ ∀ (applyReq : ServerState → ApiRequest → ServerState) (srv : ServerState),
        (handlePasswordChange oldPw newPw confirmPw).2.foldl applyReq srv = srv
        ∧ (handleResetSubmit tok newPw confirmPw).2.foldl applyReq srv = srv := by
  refine ⟨by simp [handlePasswordChange, h], by simp [handleResetSubmit, h], ?_⟩
  intro applyReq srv
  constructor
  · simp [handlePasswordChange, h]
  · simp [handleResetSubmit, h]

/-- C6 witness: mismatched fields `"a"`/`"b"` produce the mismatch errors
and an empty request list, leaving a concrete server state unchanged. -/
theorem password_mismatch_no_request_witness :
    handlePasswordChange "old" "a" "b" = (some "New passwords do not match", [])
    ∧ handleResetSubmit "tk" "a" "b" = (some "Passwords do not match", [])
    ∧ ∀ (applyReq : ServerState → ApiRequest → ServerState) (srv : ServerState),
        (handlePasswordChange "old" "a" "b").2.foldl applyReq srv = srv
        ∧ (handleResetSubmit "tk" "a" "b").2.foldl applyReq srv = srv :=
  password_mismatch_no_request "old" "a" "b" "tk" (by decide)

/-- C9. Logout is a pure client-side discard: `handleLogout` clears
exactly the auth slice of the client state (user, token, persisted
token), leaves every other part of the client state untouched, issues no
request, and navigates to the login page; the underlying context `logout`
maps every auth state to the fully-cleared one. -/
theorem logout_pure_client_side_discard (s : ClientState) :
    handleLogout s
      = ({ s with auth := { user := none, token := none, storedToken := none } },
         ([] : List ApiRequest), "/login")
    ∧ ∀ s' : AuthState, logout s' = ⟨none, none, none⟩ :=
  ⟨rfl, fun _ => rfl⟩

/-- C5. The protected seed administrator
(`administrator@studlicensing.local`): for every caller role its row
offers no action control at all (no Edit, no Delete, no gear — hence no
Change-Email and no membership Add/Remove); whenever the Actions column
is rendered the cell shows the `Protected` text; and the client-side
filter with default controls never hides the row, so it is displayed
whenever the listing returns it. -/
theorem protected_seed_admin_immutable (role : Option String) (u : UserRow)
    (hp : isProtectedUser u = true) :
    controlsOf (actionsCellOf (canOnlyCreateClientOf role) (isAdminOf role) u) = []
    ∧ (canOnlyCreateClientOf role = false →
        actionsCellOf (canOnlyCreateClientOf role) (isAdminOf role) u
          = ActionsCell.protectedText)
    ∧ changeEmailAvailable role u = false
    ∧ membershipActionAvailable role u = false
    ∧ filterPred "" "all_types" "all" u = true := by
  cases hc : canOnlyCreateClientOf role with
  | true =>
    refine ⟨?_, ?_, ?_, ?_, rfl⟩
    · simp [actionsCellOf, controlsOf]
    · intro hfalse
      cases hfalse
    · simp [changeEmailAvailable, gearAvailable, hc, actionsCellOf, controlsOf]
    · simp [membershipActionAvailable, gearAvailable, hc, actionsCellOf, controlsOf]
  | false =>
    refine ⟨?_, ?_, ?_, ?_, rfl⟩
    · simp [actionsCellOf, controlsOf, hp]
    · intro _
      simp [actionsCellOf, hp]
    · simp [changeEmailAvailable, gearAvailable, hc, actionsCellOf, controlsOf, hp]
    · simp [membershipActionAvailable, gearAvailable, hc, actionsCellOf, controlsOf, hp]

/-- C5 witness: the seed administrator row under a global-admin caller:
no controls, the `Protected` cell, no Change-Email or membership action,
and the default filter keeps the row. -/
theorem protected_seed_admin_immutable_witness :
    controlsOf (actionsCellOf (canOnlyCreateClientOf (some "admin"))
        (isAdminOf (some "admin"))
        ⟨"administrator@studlicensing.local", "", "", "admin", .nullv, .nullv⟩) = []
    ∧ (canOnlyCreateClientOf (some "admin") = false →
        actionsCellOf (canOnlyCreateClientOf (some "admin")) (isAdminOf (some "admin"))
          ⟨"administrator@studlicensing.local", "", "", "admin", .nullv, .nullv⟩
          = ActionsCell.protectedText)
    ∧ changeEmailAvailable (some "admin")
        ⟨"administrator@studlicensing.local", "", "", "admin", .nullv, .nullv⟩ = false
    ∧ membershipActionAvailable (some "admin")
        ⟨"administrator@studlicensing.local", "", "", "admin", .nullv, .nullv⟩ = false
    ∧ filterPred "" "all_types" "all"
        ⟨"administrator@studlicensing.local", "", "", "admin", .nullv, .nullv⟩ = true :=
  protected_seed_admin_immutable (some "admin")
    ⟨"administrator@studlicensing.local", "", "", "admin", .nullv, .nullv⟩
    (by decide)

/-- C7. Creation-role restriction in the Create-User dialog, for every
caller role that can reach the `/admin` page: `company_developper` and
`company_commercial` callers are offered exactly `company_client`; a
`company_admin` caller is offered exactly the four company roles and can
never submit `admin`; the `global_admin` option (submitted as `admin`)
and the explicit company attachment are offered exactly to the global
admin. -/
theorem create_user_role_restriction (role : Option String)
    (hacc : adminPageAccessible role = true) :
    (canOnlyCreateClientOf role = true → roleOptions role = ["company_client"])
    ∧ (isCompanyAdminOf role = true →
        roleOptions role
          = ["company_admin", "company_client", "company_commercial", "company_developper"]
        ∧ ∀ t ∈ roleOptions role, typeToSend t ≠ "admin")
    ∧ (("global_admin" ∈ roleOptions role) ↔ role = some "admin")
    ∧ (companyAttachmentOffered role = true ↔ role = some "admin")
    ∧ typeToSend "global_admin" = "admin" := by
  cases role with
  | none => simp [adminPageAccessible, hasRole] at hacc
  | some t =>
    have ht : t = "admin" ∨ t = "company_admin" ∨ t = "company_developper"
        ∨ t = "company_commercial" := by
      simpa [adminPageAccessible, hasRole] using hacc
    rcases ht with h | h | h | h <;> subst h <;> decide

/-- C7 witness: a `company_admin` caller is offered exactly the four
company roles, none of which submits as `admin`; the global-admin-only
facts hold (negatively) at this caller. -/
theorem create_user_role_restriction_witness :
    (canOnlyCreateClientOf (some "company_admin") = true →
      roleOptions (some "company_admin") = ["company_client"])
    ∧ (isCompanyAdminOf (some "company_admin") = true →
        roleOptions (some "company_admin")
          = ["company_admin", "company_client", "company_commercial", "company_developper"]
        ∧ ∀ t ∈ roleOptions (some "company_admin"), typeToSend t ≠ "admin")
    ∧ (("global_admin" ∈ roleOptions (some "company_admin"))
        ↔ (some "company_admin" : Option String) = some "admin")
    ∧ (companyAttachmentOffered (some "company_admin") = true
        ↔ (some "company_admin" : Option String) = some "admin")
    ∧ typeToSend "global_admin" = "admin" :=
  create_user_role_restriction (some "company_admin") (by decide)

/-- C8. Company-membership Add/Remove is offered only for client
principals: the gear menu for a target user contains the Add-to-Company
and Remove-from-Company items iff the target's role is exactly
`company_client`, and for any caller role a membership action is
reachable only when the target's role is `company_client`. -/
theorem membership_actions_client_only (role : Option String) (u : UserRow) :
    ((GearItem.addToCompany ∈ gearMenuItems u) ↔ u.user_type = "company_client")
    ∧ ((GearItem.removeFromCompany ∈ gearMenuItems u) ↔ u.user_type = "company_client")
    ∧ (membershipActionAvailable role u = true → u.user_type = "company_client") := by
  by_cases h : u.user_type = "company_client"
  · refine ⟨?_, ?_, fun _ => h⟩ <;> simp [gearMenuItems, h]
  · refine ⟨?_, ?_, ?_⟩
    · simp [gearMenuItems, h]
    · simp [gearMenuItems, h]
    · intro hav
      exfalso
      simp [membershipActionAvailable, h] at hav

/-- C10. `stableSort` with `getComparator`: for either direction the
result is a permutation of the input, pairwise ordered by the
case-insensitive string comparison on the chosen key (descending reverses
it); the index-decorated sort keeps rows with equal keys in their
original index order (stability); and the ascending comparator is the
pointwise negation of the descending one. -/
theorem stable_sort_spec (l : List UserRow) (k : String) :
    List.Perm (stableSort l (getComparator "asc" k)) l
    ∧ List.Perm (stableSort l (getComparator "desc" k)) l
    ∧ List.Pairwise (fun a b => keyOf k a ≤ keyOf k b)
        (stableSort l (getComparator "asc" k))
    ∧ List.Pairwise (fun a b => keyOf k b ≤ keyOf k a)
        (stableSort l (getComparator "desc" k))
    ∧ List.Pairwise (fun x y => getComparator "asc" k x.2 y.2 = 0 → x.1 ≤ y.1)
        (List.insertionSort (stabLE (getComparator "asc" k)) (decorate 0 l))
    ∧ List.Pairwise (fun x y => getComparator "desc" k x.2 y.2 = 0 → x.1 ≤ y.1)
        (List.insertionSort (stabLE (getComparator "desc" k)) (decorate 0 l))
    ∧ ∀ a b, getComparator "asc" k a b = -(getComparator "desc" k a b) := by
  refine ⟨stableSort_perm l _, stableSort_perm l _, ?_, ?_, ?_, ?_, ?_⟩
  · rw [getComparator_asc_eq]
    exact stableSort_sorted_asc (keyOf k) l
  · rw [getComparator_desc_eq]
    exact stableSort_sorted_desc (keyOf k) l
  · rw [getComparator_asc_eq]
    exact insertionSort_stable (keyCmpAsc (keyOf k))
      (isTotal_stabLE_asc (keyOf k)) (isTrans_stabLE_asc (keyOf k)) l
  · rw [getComparator_desc_eq]
    exact insertionSort_stable (keyCmpDesc (keyOf k))
      (isTotal_stabLE_desc (keyOf k)) (isTrans_stabLE_desc (keyOf k)) l
  · intro a b
    rw [getComparator_asc_eq, getComparator_desc_eq]
    exact (strCmp_neg (keyOf k b) (keyOf k a)).symm

/-- C1 counterexample: a response whose `x-refresh-token` header carries
`"tokB"`, different from the current token `"tokA"`, against a decoder on
which `"tokB"` fails to decode (`jwtDecode` throws): `apiCall` updates
the in-memory `currentTokenRef` but the persisted token stays `"tokA"` —
the claim's "updating … the persisted token" fails at this input. -/
theorem rotation_adoption_counterexample :
    (handleResponse (fun _ => none)
        ⟨⟨none, some "tokA", some "tokA"⟩, some "tokA", false⟩
        ⟨some "tokB", 200, none⟩).auth.storedToken = some "tokA"
    ∧ (handleResponse (fun _ => none)
        ⟨⟨none, some "tokA", some "tokA"⟩, some "tokA", false⟩
        ⟨some "tokB", 200, none⟩).auth.storedToken ≠ some "tokB"
    ∧ (handleResponse (fun _ => none)
        ⟨⟨none, some "tokA", some "tokA"⟩, some "tokA", false⟩
        ⟨some "tokB", 200, none⟩).currentTokenRef = some "tokB"
    ∧ ("tokB" : String) ≠ "tokA" := by
  refine ⟨rfl, ?_, rfl, ?_⟩ <;> decide

/-- C1 (amended). Token rotation adoption: outside the deleted-account
401 branch, if the refresh header carries a non-empty replacement token
different from the current request token, the client always adopts it as
the in-memory request token (so subsequent calls use it), and — when the
replacement decodes as a JWT — also updates the auth-state token and the
persisted token; if the header is absent, or equal to the current token,
the client state is left unchanged (adoption is idempotent). -/
theorem rotation_adoption (dec : String → Option JwtPayload)
    (s : ClientState) (r : ApiResponse) (rt : String) (d : JwtPayload)
    (hnot : ¬(r.status = 401 ∧ r.detail = some "Invalid user.")) :
    (r.refreshHeader = some rt → rt ≠ "" → some rt ≠ s.currentTokenRef →
      (handleResponse dec s r).currentTokenRef = some rt
      ∧ (dec rt = some d →
          (handleResponse dec s r).auth.token = some rt
          ∧ (handleResponse dec s r).auth.storedToken = some rt))
    ∧ (r.refreshHeader = none → handleResponse dec s r = s)
    ∧ (r.refreshHeader = some rt → some rt = s.currentTokenRef →
        handleResponse dec s r = s) := by
  have hH : handleResponse dec s r = adoptRefresh dec s r := by
    unfold handleResponse
    rw [if_neg hnot]
  refine ⟨?_, ?_, ?_⟩
  · intro h1 h2 h3
    have hA : adoptRefresh dec s r
        = { s with currentTokenRef := some rt, auth := login dec s.auth rt } := by
      simp only [adoptRefresh, h1]
      rw [if_pos ⟨h2, h3⟩]
    refine ⟨by rw [hH, hA], ?_⟩
    intro hd
    rw [hH, hA]
    constructor <;> simp [login, hd]
  · intro h1
    rw [hH]
    simp [adoptRefresh, h1]
  · intro h1 h2
    rw [hH]
    simp only [adoptRefresh, h1]
    rw [if_neg (by intro hc; exact hc.2 h2)]

/-- C1 witness: a decodable replacement token `"tokB"` on a 200 response
is adopted into the request token, the auth token and the persisted
token; the absent-header and equal-token branches hold vacuously at this
input. -/
theorem rotation_adoption_witness :
    ((⟨some "tokB", 200, none⟩ : ApiResponse).refreshHeader = some "tokB" →
      ("tokB" : String) ≠ "" →
      some "tokB" ≠ (⟨⟨none, some "tokA", some "tokA"⟩, some "tokA", false⟩ : ClientState).currentTokenRef →
      (handleResponse (fun _ => some ⟨"u@e", none, none, some "admin", 99⟩)
          ⟨⟨none, some "tokA", some "tokA"⟩, some "tokA", false⟩
          ⟨some "tokB", 200, none⟩).currentTokenRef = some "tokB"
      ∧ ((fun _ => some (⟨"u@e", none, none, some "admin", 99⟩ : JwtPayload)) "tokB"
            = some ⟨"u@e", none, none, some "admin", 99⟩ →
          (handleResponse (fun _ => some ⟨"u@e", none, none, some "admin", 99⟩)
              ⟨⟨none, some "tokA", some "tokA"⟩, some "tokA", false⟩
              ⟨some "tokB", 200, none⟩).auth.token = some "tokB"
          ∧ (handleResponse (fun _ => some ⟨"u@e", none, none, some "admin", 99⟩)
              ⟨⟨none, some "tokA", some "tokA"⟩, some "tokA", false⟩
              ⟨some "tokB", 200, none⟩).auth.storedToken = some "tokB"))
    ∧ ((⟨some "tokB", 200, none⟩ : ApiResponse).refreshHeader = none →
      handleResponse (fun _ => some ⟨"u@e", none, none, some "admin", 99⟩)
          ⟨⟨none, some "tokA", some "tokA"⟩, some "tokA", false⟩
          ⟨some "tokB", 200, none⟩
        = ⟨⟨none, some "tokA", some "tokA"⟩, some "tokA", false⟩)
    ∧ ((⟨some "tokB", 200, none⟩ : ApiResponse).refreshHeader = some "tokB" →
      some "tokB" = (⟨⟨none, some "tokA", some "tokA"⟩, some "tokA", false⟩ : ClientState).currentTokenRef →
      handleResponse (fun _ => some ⟨"u@e", none, none, some "admin", 99⟩)
          ⟨⟨none, some "tokA", some "tokA"⟩, some "tokA", false⟩
          ⟨some "tokB", 200, none⟩
        = ⟨⟨none, some "tokA", some "tokA"⟩, some "tokA", false⟩) :=
  rotation_adoption (fun _ => some ⟨"u@e", none, none, some "admin", 99⟩)
    ⟨⟨none, some "tokA", some "tokA"⟩, some "tokA", false⟩
    ⟨some "tokB", 200, none⟩ "tokB" ⟨"u@e", none, none, some "admin", 99⟩
    (by decide)

end StudLicensing








